import Mathlib

/-!
Verification of the window-configuration core of `ign-gui`
(`src/MainWindow.cc`): the `WindowConfig` record, its XML
serialization (`WindowConfig::XMLString`) and parsing
(`WindowConfig::MergeFromXML`), and the `MainWindow` operations
`ApplyConfig`, `UpdateWindowConfig` and `SaveConfig`.

The XML layer is embedded at the element-tree level: tinyxml2's
text printer/parser pair is an external library, so serialization
builds the element tree that `XMLString` constructs before printing,
and parsing consumes the tree that tinyxml2 would hand back.  Element
text content is typed (`XmlValue`): `vInt`/`vBool`/`vBase64` stand for
text that `std::to_string` / `boolalpha` / `QByteArray::toBase64`
produce and that `QueryIntText` / `QueryBoolText` /
`QByteArray::fromBase64` read back; `vNone` is an element with no text
child (tinyxml2's `GetText()` returns null there, which is also what a
re-parse of `SetText("")` yields).
-/

namespace IgnGui

/-- Typed text content of an XML element or attribute. -/
inductive XmlValue where
  | vNone : XmlValue
  | vInt (i : Int) : XmlValue
  | vBool (b : Bool) : XmlValue
  | vText (s : String) : XmlValue
  | vBase64 (bytes : List Nat) : XmlValue
deriving DecidableEq, Repr

/-- An XML element: tag name, boolean attributes (the only kind this
code reads or writes), text content, child elements. -/
inductive XmlElem where
  | mk (name : String) (attrs : List (String × Bool)) (content : XmlValue)
      (children : List XmlElem) : XmlElem

/-- Tag name of an element. -/
def XmlElem.name : XmlElem → String
  | .mk n _ _ _ => n

/-- Attributes of an element. -/
def XmlElem.attrs : XmlElem → List (String × Bool)
  | .mk _ a _ _ => a

/-- Text content of an element. -/
def XmlElem.content : XmlElem → XmlValue
  | .mk _ _ c _ => c

/-- Child elements of an element. -/
def XmlElem.children : XmlElem → List XmlElem
  | .mk _ _ _ cs => cs

/-- tinyxml2 `FirstChildElement(name)`: first element of the list with
the given tag name. -/
def firstChild (cs : List XmlElem) (n : String) : Option XmlElem :=
  cs.find? (fun e => e.name = n)

/-- tinyxml2 `GetText()`: the raw text child, if any.  In the typed
embedding only `vText` carries free-form text. -/
def textOf : XmlValue → Option String
  | .vText s => some s
  | _ => none

/-- tinyxml2 `SetText(s.c_str())` as seen after a print/parse cycle:
an empty string leaves no text child (`GetText()` returns null). -/
def textValue (s : String) : XmlValue :=
  if s = "" then .vNone else .vText s

/-- The `WindowConfig` record of `MainWindow.hh`.  Field defaults are
modelled from the spec (the header is not part of the sources):
geometry fields start at the `-1` "unset/ignore" sentinel, the dock
state blob and stylesheet are empty, `menuVisibilityMap` starts empty. -/
structure WindowConfig where
  posX : Int := -1
  posY : Int := -1
  width : Int := -1
  height : Int := -1
  /-- Field `QByteArray state` — opaque dock-layout blob, as bytes. -/
  state : List Nat := []
  styleSheet : String := ""
  saveOnExit : Bool := false
  /-- Field `std::map<std::string, bool> menuVisibilityMap`, as an
  association list without duplicate keys. -/
  menuVisibilityMap : List (String × Bool) := []
  pluginsFromPaths : Bool := true
  showPlugins : List String := []
deriving DecidableEq, Repr

/-- Modelled from the spec: a freshly default-constructed
`WindowConfig` ("created with default (sentinel) values at startup");
the defaults themselves live in `MainWindow.hh`, outside the sources. -/
def WindowConfig.default : WindowConfig := {}

/-- The `std::map` insert-or-assign (`map[key] = value`): replaces the
value of an existing key, otherwise adds the binding. -/
def mapInsert (m : List (String × Bool)) (k : String) (v : Bool) :
    List (String × Bool) :=
  match m with
  | [] => [(k, v)]
  | (k1, v1) :: rest =>
      if k1 = k then (k1, v) :: rest else (k1, v1) :: mapInsert rest k v

/-- Reading `if (auto elem = winElem->FirstChildElement(tag))
elem->QueryIntText(&field)`: the new value of an integer field —
changed only when the element exists and its text converts to an
integer. -/
def queryIntFrom (win : XmlElem) (tag : String) (cur : Int) : Int :=
  match firstChild win.children tag with
  | some e => match e.content with
    | .vInt i => i
    | _ => cur
  | none => cur

/-- Reading `QueryBoolText` through an optional child element, as
`queryIntFrom`. -/
def queryBoolFrom (win : XmlElem) (tag : String) (cur : Bool) : Bool :=
  match firstChild win.children tag with
  | some e => match e.content with
    | .vBool b => b
    | _ => cur
  | none => cur

/-- Block of `MergeFromXML` for the position:  `position_x` / `position_y`
children read with `QueryIntText` (absent or non-integer text leaves
the field unchanged). -/
def mergePosition (win : XmlElem) (c : WindowConfig) : WindowConfig :=
  { c with posX := queryIntFrom win "position_x" c.posX
         , posY := queryIntFrom win "position_y" c.posY }

/-- Block of `MergeFromXML` for the size:  `width` / `height` children read with
`QueryIntText`. -/
def mergeSize (win : XmlElem) (c : WindowConfig) : WindowConfig :=
  { c with width := queryIntFrom win "width" c.width
         , height := queryIntFrom win "height" c.height }

/-- Block of `MergeFromXML` for `save_on_exit`: read with `QueryBoolText`. -/
def mergeSaveOnExit (win : XmlElem) (c : WindowConfig) : WindowConfig :=
  { c with saveOnExit := queryBoolFrom win "save_on_exit" c.saveOnExit }

/-- Block of `MergeFromXML` for `state`: the new blob.  `GetText()` then
`QByteArray::fromBase64`: a present but empty element gives a null
text pointer, and `fromBase64` of that is the empty array; text that
is not the image of `toBase64` is decoded by Qt char-skipping, which
is external and not reached by any document this code emits — it is
collapsed to the empty array here. -/
def stateFrom (win : XmlElem) (cur : List Nat) : List Nat :=
  match firstChild win.children "state" with
  | some e => match e.content with
    | .vBase64 bs => bs
    | _ => []
  | none => cur

/-- Block of `MergeFromXML` for `state`, as a record update. -/
def mergeState (win : XmlElem) (c : WindowConfig) : WindowConfig :=
  { c with state := stateFrom win c.state }

/-- Block of `MergeFromXML` for `stylesheet`: the element's text (or "" when
the element is present but empty) is passed to `setStyleFromString` as
a side effect; the record's `styleSheet` field is NOT assigned.  The
returned list is the sequence of `setStyleFromString` calls made. -/
def mergeStyleCalls (win : XmlElem) : List String :=
  match firstChild win.children "stylesheet" with
  | some e => match textOf e.content with
    | some t => [t]
    | none => [""]
  | none => []

/-- Names collected by the `show` loop of `MergeFromXML`: every child
of `plugins` tagged `show`, in document order, keeping only those with
a non-null text (`GetText()`). -/
def showNamesOf (pluginsElem : XmlElem) : List String :=
  (pluginsElem.children.filter (fun e => e.name = "show")).filterMap
    (fun e => textOf e.content)

/-- The `visible` attribute of `menus/file`, when both the element
and the attribute are present. -/
def fileVisibilityOf (menusElem : XmlElem) : Option Bool :=
  match firstChild menusElem.children "file" with
  | some fileElem => fileElem.attrs.lookup "visible"
  | none => none

/-- The `visible` attribute of `menus/plugins`, when present. -/
def pluginsVisibilityOf (menusElem : XmlElem) : Option Bool :=
  match firstChild menusElem.children "plugins" with
  | some pluginsElem => pluginsElem.attrs.lookup "visible"
  | none => none

/-- The `from_paths` attribute of `menus/plugins`, when present. -/
def pluginsFromPathsOf (menusElem : XmlElem) : Option Bool :=
  match firstChild menusElem.children "plugins" with
  | some pluginsElem => pluginsElem.attrs.lookup "from_paths"
  | none => none

/-- The `show` names under `menus/plugins` ([] when the `plugins`
element is absent). -/
def pluginsShowNames (menusElem : XmlElem) : List String :=
  match firstChild menusElem.children "plugins" with
  | some pluginsElem => showNamesOf pluginsElem
  | none => []

/-- Insert a key into the visibility map when the attribute was
present, leave the map alone otherwise. -/
def insertVisibility (m : List (String × Bool)) (k : String) :
    Option Bool → List (String × Bool)
  | some v => mapInsert m k v
  | none => m

/-- The visibility map after the `menus` block: when the `menus`
element exists, the `file` key is inserted first (when its attribute
is present), then the `plugins` key. -/
def menusMapFrom (win : XmlElem) (m : List (String × Bool)) :
    List (String × Bool) :=
  match firstChild win.children "menus" with
  | none => m
  | some menusElem =>
      insertVisibility
        (insertVisibility m "file" (fileVisibilityOf menusElem))
        "plugins" (pluginsVisibilityOf menusElem)

/-- Value of `pluginsFromPaths` after the `menus` block: assigned only when the
`menus/plugins` element carries a `from_paths` attribute. -/
def fromPathsFrom (win : XmlElem) (cur : Bool) : Bool :=
  match firstChild win.children "menus" with
  | none => cur
  | some menusElem => (pluginsFromPathsOf menusElem).getD cur

/-- The `show` names the document contributes ([] without a
`menus/plugins` path). -/
def parsedShowNames (win : XmlElem) : List String :=
  match firstChild win.children "menus" with
  | none => []
  | some menusElem => pluginsShowNames menusElem

/-- Block of `MergeFromXML` for `menus`: optional `file` and `plugins`
children; `visible` attributes insert into `menuVisibilityMap` only
when present (`file` first, then `plugins`); `from_paths` assigns
`pluginsFromPaths` only when present; each `show` child with text is
appended to `showPlugins` (never replacing the existing entries). -/
def mergeMenus (win : XmlElem) (c : WindowConfig) : WindowConfig :=
  { c with
      menuVisibilityMap := menusMapFrom win c.menuVisibilityMap
      pluginsFromPaths := fromPathsFrom win c.pluginsFromPaths
      showPlugins := c.showPlugins ++ parsedShowNames win }

/-- Result of `WindowConfig::MergeFromXML`: the returned bool, the
mutated record, and the `setStyleFromString` side-effect calls. -/
structure MergeResult where
  ok : Bool
  cfg : WindowConfig
  styleCalls : List String
deriving DecidableEq, Repr

/-- Model of `WindowConfig::MergeFromXML` over the parsed document (a list of
top-level elements; tinyxml2's text parser is external).  Returns
false and touches nothing when there is no `window` root; otherwise
merges each optional block in source order (position, size,
save_on_exit, state, stylesheet side effect, menus) and returns
true. -/
def WindowConfig.MergeFromXML (c : WindowConfig) (doc : List XmlElem) :
    MergeResult :=
  match firstChild doc "window" with
  | none => ⟨false, c, []⟩
  | some winElem =>
      ⟨true,
       mergeMenus winElem
         (mergeState winElem
           (mergeSaveOnExit winElem
             (mergeSize winElem
               (mergePosition winElem c)))),
       mergeStyleCalls winElem⟩

/-- Model of `WindowConfig::XMLString`, at the element-tree level: the `window`
element that the function builds and then prints with tinyxml2's
printer.  Children in insertion order: `position_x`, `position_y`,
`state`, `width`, `height`, `save_on_exit`, `stylesheet`, `menus`
(the second `InsertEndChild(menusElem)` in the source re-inserts the
node that is already the last child, leaving the order unchanged).
The `file` and `plugins` elements carry a `visible` attribute only
when `menuVisibilityMap` holds their key; `plugins` always carries
`from_paths` and one `show` child per `showPlugins` entry, in order. -/
def WindowConfig.XMLString (c : WindowConfig) : XmlElem :=
  .mk "window" [] .vNone
    [ .mk "position_x" [] (.vInt c.posX) []
    , .mk "position_y" [] (.vInt c.posY) []
    , .mk "state" []
        (if c.state = [] then .vNone else .vBase64 c.state) []
    , .mk "width" [] (.vInt c.width) []
    , .mk "height" [] (.vInt c.height) []
    , .mk "save_on_exit" [] (.vBool c.saveOnExit) []
    , .mk "stylesheet" [] (textValue c.styleSheet) []
    , .mk "menus" [] .vNone
        [ .mk "file"
            (match c.menuVisibilityMap.lookup "file" with
             | some b => [("visible", b)]
             | none => []) .vNone []
        , .mk "plugins"
            ((match c.menuVisibilityMap.lookup "plugins" with
              | some b => [("visible", b)]
              | none => []) ++ [("from_paths", c.pluginsFromPaths)])
            .vNone
            (c.showPlugins.map (fun s => .mk "show" [] (textValue s) []))
        ]
    ]

/-- Model of a `QMenu` attached to the main window's menu bar: its
`objectName`, the visibility of its `menuAction()`, and its actions as
(text, visible) pairs. -/
structure MenuM where
  objectName : String
  menuVisible : Bool
  actions : List (String × Bool)
deriving DecidableEq, Repr

/-- Live state of the `MainWindow` and application that the config
operations read and write: window geometry, the `saveState()` dock
blob, the application-wide stylesheet, the menu-bar menus, and the
owned `windowConfig` (the `MainWindowPrivate` member). -/
structure MainWindowState where
  posX : Int
  posY : Int
  winWidth : Int
  winHeight : Int
  dockState : List Nat
  appStyleSheet : String
  menus : List MenuM
  windowConfig : WindowConfig
deriving DecidableEq, Repr

/-- Model of `findChild<QMenu *>(name)`: first menu with the given object
name. -/
def findMenu (ms : List MenuM) (nm : String) : Option MenuM :=
  ms.find? (fun m => m.objectName = nm)

/-- Update the first menu with the given object name, when present. -/
def updateMenu (ms : List MenuM) (nm : String) (f : MenuM → MenuM) :
    List MenuM :=
  match ms with
  | [] => []
  | m :: rest =>
      if m.objectName = nm then f m :: rest
      else m :: updateMenu rest nm f

/-- Loop of `ApplyConfig` hiding menus: for each `(key, visible)` in
`menuVisibilityMap`, `findChild<QMenu *>(key + "Menu")` and set its
menu action's visibility. -/
def hideMenusWith (mvm : List (String × Bool)) (ms : List MenuM) :
    List MenuM :=
  mvm.foldl
    (fun acc kv =>
      updateMenu acc (kv.1 ++ "Menu")
        (fun m => { m with menuVisible := kv.2 }))
    ms

/-- The warning text for a requested plugin with no menu entry. -/
def missingPluginWarning (plugin : String) : String :=
  "Requested to show plugin [" ++ plugin ++ "] but it doesn't exist."

/-- Result of `MainWindow::ApplyConfig`: the mutated live state, the
`ignwarn` lines emitted, and the returned bool. -/
structure ApplyResult where
  window : MainWindowState
  warnings : List String
  returned : Bool
deriving DecidableEq, Repr

/-- Block of `ApplyConfig` for the plugins menu, acting on the menu list:
when `findChild<QMenu *>("pluginsMenu")` finds the menu, every action
becomes visible iff `pluginsFromPaths` is set or its text appears in
`showPlugins`, and each `showPlugins` entry matching no action text
yields a missing-plugin warning. -/
def applyPluginActions (c : WindowConfig) (ms : List MenuM) :
    List MenuM × List String :=
  match findMenu ms "pluginsMenu" with
  | none => (ms, [])
  | some menu =>
      (updateMenu ms "pluginsMenu"
        (fun m =>
          { m with actions :=
              m.actions.map (fun (a : String × Bool) =>
                (a.1, c.pluginsFromPaths || c.showPlugins.contains a.1)) }),
       (c.showPlugins.filter
          (fun p => !(menu.actions.any (fun a => a.1 == p)))).map
         missingPluginWarning)

/-- Model of `MainWindow::ApplyConfig`.  Here `restoreOk` is the (external) result
of `QMainWindow::restoreState` when it is called.  The steps mutate
disjoint parts of the live state, so the result is given field by
field, each matching one source block: move only when both positions
are non-negative; resize only when both sizes are non-negative;
restore the dock state only when the blob is non-empty, warning on
failure; apply the stylesheet; set each configured menu's visibility
("Hide menus" loop) and then recompute the plugins-menu action
visibilities; store the config as the owned copy; return true.  The
warnings list keeps the source's emission order: the dock-restore
warning first, then the missing-plugin warnings. -/
def ApplyConfig (st : MainWindowState) (restoreOk : Bool)
    (c : WindowConfig) : ApplyResult :=
  ⟨{ posX := if c.posX ≥ 0 ∧ c.posY ≥ 0 then c.posX else st.posX
     posY := if c.posX ≥ 0 ∧ c.posY ≥ 0 then c.posY else st.posY
     winWidth := if c.width ≥ 0 ∧ c.height ≥ 0 then c.width else st.winWidth
     winHeight := if c.width ≥ 0 ∧ c.height ≥ 0 then c.height else st.winHeight
     dockState := if c.state ≠ [] ∧ restoreOk then c.state else st.dockState
     appStyleSheet := c.styleSheet
     menus := (applyPluginActions c
       (hideMenusWith c.menuVisibilityMap st.menus)).1
     windowConfig := c },
   (if c.state ≠ [] ∧ ¬ restoreOk then ["Failed to restore state"] else []) ++
     (applyPluginActions c (hideMenusWith c.menuVisibilityMap st.menus)).2,
   true⟩

/-- Model of `MainWindow::UpdateWindowConfig`: snapshot live position, size,
dock state and application stylesheet into the owned `windowConfig`;
the menus configuration is deliberately left as it is. -/
def UpdateWindowConfig (st : MainWindowState) : MainWindowState :=
  { st with windowConfig :=
      { st.windowConfig with
          posX := st.posX
          posY := st.posY
          width := st.winWidth
          height := st.winHeight
          state := st.dockState
          styleSheet := st.appStyleSheet } }

/-- The error dialog text of `SaveConfig` when the file cannot be
opened. -/
def saveErrorDialog (path : String) : String :=
  "Unable to open file: " ++ path ++ ".\nCheck file permissions."

/-- The `ignmsg` log line of `SaveConfig`. -/
def savedConfigLog (path : String) : String :=
  "Saved configuration [" ++ path ++ "]"

/-- Result of `MainWindow::SaveConfig`: the mutated live state, any
modal dialog texts shown (`QMessageBox::exec`), the `ignmsg` log
lines, and whether the config text was written to the file. -/
structure SaveResult where
  window : MainWindowState
  dialogs : List String
  logs : List String
  written : Bool
deriving DecidableEq, Repr

/-- Model of `MainWindow::SaveConfig`.  Here `openOk` is the (external) result of
opening the destination `std::ofstream`.  First snapshots the live
window into the owned config (`UpdateWindowConfig`) and builds the
config text; then (after `createDirectories`, external) opens the
file: on failure shows the modal error dialog and writes nothing, on
success writes the text; the "Saved configuration" log line is emitted
unconditionally.  The function returns normally in every case. -/
def SaveConfig (st : MainWindowState) (path : String) (openOk : Bool) :
    SaveResult :=
  let st1 := UpdateWindowConfig st
  if openOk then
    ⟨st1, [], [savedConfigLog path], true⟩
  else
    ⟨st1, [saveErrorDialog path], [savedConfigLog path], false⟩

/-! ### Concrete fixtures used by the witnesses -/

/-- A representative `WindowConfig` with every field set to a
non-default value and both menu-visibility keys explicitly set. -/
def cfgRep : WindowConfig :=
  { posX := 100, posY := 200, width := 800, height := 600,
    state := [1, 2, 3], styleSheet := "mystyle", saveOnExit := true,
    menuVisibilityMap := [("file", false), ("plugins", true)],
    pluginsFromPaths := false, showPlugins := ["Foo", "Bar"] }

/-- A concrete live main-window state with the two menus the
constructor builds (`fileMenu`, `pluginsMenu`) and two plugin
entries. -/
def winRep : MainWindowState :=
  { posX := 10, posY := 20, winWidth := 640, winHeight := 480,
    dockState := [7, 7], appStyleSheet := "livestyle",
    menus := [⟨"fileMenu", true, []⟩,
              ⟨"pluginsMenu", true, [("Foo", false), ("Baz", true)]⟩],
    windowConfig := {} }

/-- A configuration asking only for the plugin labeled "Foo". -/
def cfgFoo : WindowConfig :=
  { cfgRep with pluginsFromPaths := false, showPlugins := ["Foo"] }

/-- A configuration showing all plugin entries via `from_paths`. -/
def cfgTrue : WindowConfig :=
  { cfgRep with pluginsFromPaths := true, showPlugins := [] }

/-- A parsed document that sets `width` and `height` but omits
`position_x` / `position_y`. -/
def widthHeightDoc : List XmlElem :=
  [.mk "window" [] .vNone
    [.mk "width" [] (.vInt 800) [], .mk "height" [] (.vInt 600) []]]

/-- The configuration obtained by merging `widthHeightDoc` into a
fresh record. -/
def parsedWH : WindowConfig :=
  (WindowConfig.default.MergeFromXML widthHeightDoc).cfg

/-- The key set of the visibility map. -/
def mapKeys (m : List (String × Bool)) : List String :=
  m.map Prod.fst

/-! ### Frame lemmas for the `MergeFromXML` blocks -/

/-- The position block touches only `posX` and `posY`. -/
theorem mergePosition_frame (win : XmlElem) (c : WindowConfig) :
    (mergePosition win c).width = c.width ∧
    (mergePosition win c).height = c.height ∧
    (mergePosition win c).state = c.state ∧
    (mergePosition win c).styleSheet = c.styleSheet ∧
    (mergePosition win c).saveOnExit = c.saveOnExit ∧
    (mergePosition win c).menuVisibilityMap = c.menuVisibilityMap ∧
    (mergePosition win c).pluginsFromPaths = c.pluginsFromPaths ∧
    (mergePosition win c).showPlugins = c.showPlugins := by
  and_intros <;> rfl

/-- The size block touches only `width` and `height`. -/
theorem mergeSize_frame (win : XmlElem) (c : WindowConfig) :
    (mergeSize win c).posX = c.posX ∧
    (mergeSize win c).posY = c.posY ∧
    (mergeSize win c).state = c.state ∧
    (mergeSize win c).styleSheet = c.styleSheet ∧
    (mergeSize win c).saveOnExit = c.saveOnExit ∧
    (mergeSize win c).menuVisibilityMap = c.menuVisibilityMap ∧
    (mergeSize win c).pluginsFromPaths = c.pluginsFromPaths ∧
    (mergeSize win c).showPlugins = c.showPlugins := by
  and_intros <;> rfl

/-- The `save_on_exit` block touches only `saveOnExit`. -/
theorem mergeSaveOnExit_frame (win : XmlElem) (c : WindowConfig) :
    (mergeSaveOnExit win c).posX = c.posX ∧
    (mergeSaveOnExit win c).posY = c.posY ∧
    (mergeSaveOnExit win c).width = c.width ∧
    (mergeSaveOnExit win c).height = c.height ∧
    (mergeSaveOnExit win c).state = c.state ∧
    (mergeSaveOnExit win c).styleSheet = c.styleSheet ∧
    (mergeSaveOnExit win c).menuVisibilityMap = c.menuVisibilityMap ∧
    (mergeSaveOnExit win c).pluginsFromPaths = c.pluginsFromPaths ∧
    (mergeSaveOnExit win c).showPlugins = c.showPlugins := by
  and_intros <;> rfl

/-- The `state` block touches only `state`. -/
theorem mergeState_frame (win : XmlElem) (c : WindowConfig) :
    (mergeState win c).posX = c.posX ∧
    (mergeState win c).posY = c.posY ∧
    (mergeState win c).width = c.width ∧
    (mergeState win c).height = c.height ∧
    (mergeState win c).styleSheet = c.styleSheet ∧
    (mergeState win c).saveOnExit = c.saveOnExit ∧
    (mergeState win c).menuVisibilityMap = c.menuVisibilityMap ∧
    (mergeState win c).pluginsFromPaths = c.pluginsFromPaths ∧
    (mergeState win c).showPlugins = c.showPlugins := by
  and_intros <;> rfl

/-- The `menus` block touches only `menuVisibilityMap`,
`pluginsFromPaths` and `showPlugins`. -/
theorem mergeMenus_frame (win : XmlElem) (c : WindowConfig) :
    (mergeMenus win c).posX = c.posX ∧
    (mergeMenus win c).posY = c.posY ∧
    (mergeMenus win c).width = c.width ∧
    (mergeMenus win c).height = c.height ∧
    (mergeMenus win c).state = c.state ∧
    (mergeMenus win c).styleSheet = c.styleSheet ∧
    (mergeMenus win c).saveOnExit = c.saveOnExit := by
  and_intros <;> rfl

/-- Characterization of `MergeFromXML` when the `window` root exists:
each field of the result, block by block.  Note that `styleSheet` is
left at its prior value and the parsed stylesheet text goes only into
the `setStyleFromString` calls. -/
theorem mergeFromXML_some (c : WindowConfig) (doc : List XmlElem)
    (win : XmlElem) (h : firstChild doc "window" = some win) :
    c.MergeFromXML doc =
      ⟨true,
       { posX := queryIntFrom win "position_x" c.posX
         posY := queryIntFrom win "position_y" c.posY
         width := queryIntFrom win "width" c.width
         height := queryIntFrom win "height" c.height
         state := stateFrom win c.state
         styleSheet := c.styleSheet
         saveOnExit := queryBoolFrom win "save_on_exit" c.saveOnExit
         menuVisibilityMap := menusMapFrom win c.menuVisibilityMap
         pluginsFromPaths := fromPathsFrom win c.pluginsFromPaths
         showPlugins := c.showPlugins ++ parsedShowNames win },
       mergeStyleCalls win⟩ := by
  unfold WindowConfig.MergeFromXML
  rw [h]
  rfl

/-- No `MergeFromXML` block ever assigns the `styleSheet` field. -/
theorem mergeFromXML_styleSheet_unchanged (c : WindowConfig)
    (doc : List XmlElem) :
    (c.MergeFromXML doc).cfg.styleSheet = c.styleSheet := by
  rcases hw : firstChild doc "window" with _ | win
  · unfold WindowConfig.MergeFromXML
    rw [hw]
  · rw [mergeFromXML_some c doc win hw]

/-- An absent element leaves an integer field unchanged. -/
theorem queryIntFrom_absent (win : XmlElem) (tag : String) (cur : Int)
    (h : firstChild win.children tag = none) :
    queryIntFrom win tag cur = cur := by
  unfold queryIntFrom
  rw [h]

/-- An absent element leaves a boolean field unchanged. -/
theorem queryBoolFrom_absent (win : XmlElem) (tag : String) (cur : Bool)
    (h : firstChild win.children tag = none) :
    queryBoolFrom win tag cur = cur := by
  unfold queryBoolFrom
  rw [h]

/-- An absent `state` element leaves the blob unchanged. -/
theorem stateFrom_absent (win : XmlElem) (cur : List Nat)
    (h : firstChild win.children "state" = none) :
    stateFrom win cur = cur := by
  unfold stateFrom
  rw [h]

/-- An absent `menus` element leaves the visibility map, the
`from_paths` flag and the show list unchanged. -/
theorem menus_absent (win : XmlElem)
    (h : firstChild win.children "menus" = none) :
    (∀ m, menusMapFrom win m = m) ∧ (∀ b, fromPathsFrom win b = b) ∧
      parsedShowNames win = [] := by
  unfold menusMapFrom fromPathsFrom parsedShowNames
  rw [h]
  exact ⟨fun _ => rfl, fun _ => rfl, rfl⟩

/-! ### Lemmas about the menu list operations of `ApplyConfig` -/

/-- The identifying data of a menu: object name and actions (what the
plugins-menu pass reads), without the menu-action visibility. -/
def menuKey (m : MenuM) : String × List (String × Bool) :=
  (m.objectName, m.actions)

/-- Setting a menu's `menuVisible` does not change any name or action
list. -/
theorem updateMenu_visible_menuKey (ms : List MenuM) (nm : String)
    (v : Bool) :
    (updateMenu ms nm (fun m => { m with menuVisible := v })).map menuKey =
      ms.map menuKey := by
  induction ms with
  | nil => rfl
  | cons m rest ih =>
      unfold updateMenu
      split
      · rfl
      · simpa using ih

/-- The "Hide menus" loop changes no object name or action list. -/
theorem hideMenusWith_menuKey (mvm : List (String × Bool))
    (ms : List MenuM) :
    (hideMenusWith mvm ms).map menuKey = ms.map menuKey := by
  induction mvm generalizing ms with
  | nil => rfl
  | cons kv rest ih =>
      unfold hideMenusWith
      rw [List.foldl_cons]
      have := ih (updateMenu ms (kv.1 ++ "Menu")
        (fun m => { m with menuVisible := kv.2 }))
      unfold hideMenusWith at this
      rw [this, updateMenu_visible_menuKey]

/-- Search `findMenu` only looks at data preserved by `menuKey`: two menu
lists with the same `menuKey` projection yield the same projected
search result. -/
theorem findMenu_menuKey_congr (ms1 ms2 : List MenuM) (nm : String)
    (h : ms1.map menuKey = ms2.map menuKey) :
    (findMenu ms1 nm).map menuKey = (findMenu ms2 nm).map menuKey := by
  induction ms1 generalizing ms2 with
  | nil =>
      cases ms2 with
      | nil => rfl
      | cons b bs => simp at h
  | cons a as ih =>
      cases ms2 with
      | nil => simp at h
      | cons b bs =>
          simp only [List.map_cons, List.cons.injEq] at h
          obtain ⟨hk, ht⟩ := h
          have hname : a.objectName = b.objectName :=
            congrArg Prod.fst hk
          unfold findMenu
          simp only [List.find?_cons]
          rw [hname]
          by_cases hb : b.objectName = nm
          · simp [hb, hk]
          · simp only [hb, decide_eq_true_eq]
            simp [hb]
            exact ih bs ht

/-- Updating the menu found by `findMenu` with a name-preserving
function is visible through `findMenu`. -/
theorem findMenu_updateMenu (ms : List MenuM) (nm : String)
    (f : MenuM → MenuM) (hf : ∀ m, (f m).objectName = m.objectName) :
    findMenu (updateMenu ms nm f) nm = (findMenu ms nm).map f := by
  induction ms with
  | nil => rfl
  | cons m rest ih =>
      unfold updateMenu findMenu
      by_cases h : m.objectName = nm
      · simp [h, hf m]
      · simp [h]
        exact ih

/-- Result of `applyPluginActions` when the plugins menu exists: the menu list
part. -/
theorem applyPluginActions_fst (c : WindowConfig) (ms : List MenuM)
    (menu : MenuM) (h : findMenu ms "pluginsMenu" = some menu) :
    (applyPluginActions c ms).1 =
      updateMenu ms "pluginsMenu"
        (fun m =>
          { m with actions :=
              m.actions.map (fun (a : String × Bool) =>
                (a.1, c.pluginsFromPaths || c.showPlugins.contains a.1)) }) := by
  unfold applyPluginActions
  rw [h]

/-- Result of `applyPluginActions` when the plugins menu exists: the warnings
part. -/
theorem applyPluginActions_snd (c : WindowConfig) (ms : List MenuM)
    (menu : MenuM) (h : findMenu ms "pluginsMenu" = some menu) :
    (applyPluginActions c ms).2 =
      (c.showPlugins.filter
        (fun p => !(menu.actions.any (fun a => a.1 == p)))).map
        missingPluginWarning := by
  unfold applyPluginActions
  rw [h]

/-! ### Claim theorems -/

/-- C2: for every input whose XML document has no root `window`
element, `MergeFromXML` returns false and leaves every field of the
target `WindowConfig` unchanged (and applies no stylesheet). -/
theorem mergeFromXML_no_window_root (c : WindowConfig)
    (doc : List XmlElem) (h : firstChild doc "window" = none) :
    c.MergeFromXML doc = ⟨false, c, []⟩ := by
  unfold WindowConfig.MergeFromXML
  rw [h]

/-- Witness for C2 at a document whose only root element is not
`window`. -/
theorem mergeFromXML_no_window_root_witness :
    firstChild [XmlElem.mk "notwindow" [] .vNone []] "window" = none ∧
    cfgRep.MergeFromXML [XmlElem.mk "notwindow" [] .vNone []] =
      ⟨false, cfgRep, []⟩ :=
  ⟨rfl, mergeFromXML_no_window_root cfgRep
    [XmlElem.mk "notwindow" [] .vNone []] rfl⟩

/-- C3: under a `window` root, every recognized sub-element of
`MergeFromXML` is optional and handled independently: when
`position_x`, `position_y`, `width`, `height`, `save_on_exit`,
`state`, `stylesheet` or `menus` is absent, the corresponding field
keeps its prior value. -/
theorem mergeFromXML_missing_elements_frame (c : WindowConfig)
    (doc : List XmlElem) (win : XmlElem)
    (hwin : firstChild doc "window" = some win) :
    (firstChild win.children "position_x" = none →
      (c.MergeFromXML doc).cfg.posX = c.posX) ∧
    (firstChild win.children "position_y" = none →
      (c.MergeFromXML doc).cfg.posY = c.posY) ∧
    (firstChild win.children "width" = none →
      (c.MergeFromXML doc).cfg.width = c.width) ∧
    (firstChild win.children "height" = none →
      (c.MergeFromXML doc).cfg.height = c.height) ∧
    (firstChild win.children "save_on_exit" = none →
      (c.MergeFromXML doc).cfg.saveOnExit = c.saveOnExit) ∧
    (firstChild win.children "state" = none →
      (c.MergeFromXML doc).cfg.state = c.state) ∧
    (firstChild win.children "stylesheet" = none →
      (c.MergeFromXML doc).cfg.styleSheet = c.styleSheet) ∧
    (firstChild win.children "menus" = none →
      (c.MergeFromXML doc).cfg.menuVisibilityMap = c.menuVisibilityMap ∧
      (c.MergeFromXML doc).cfg.pluginsFromPaths = c.pluginsFromPaths ∧
      (c.MergeFromXML doc).cfg.showPlugins = c.showPlugins) := by
  rw [mergeFromXML_some c doc win hwin]
  refine ⟨fun h => queryIntFrom_absent win "position_x" c.posX h,
    fun h => queryIntFrom_absent win "position_y" c.posY h,
    fun h => queryIntFrom_absent win "width" c.width h,
    fun h => queryIntFrom_absent win "height" c.height h,
    fun h => queryBoolFrom_absent win "save_on_exit" c.saveOnExit h,
    fun h => stateFrom_absent win c.state h,
    fun _ => rfl,
    fun h => ?_⟩
  obtain ⟨h1, h2, h3⟩ := menus_absent win h
  exact ⟨h1 c.menuVisibilityMap, h2 c.pluginsFromPaths,
    by rw [h3, List.append_nil]⟩

/-- Witness for C3 at an empty `window` element: every field keeps
its prior (representative) value. -/
theorem mergeFromXML_missing_elements_frame_witness :
    firstChild [XmlElem.mk "window" [] .vNone []] "window" =
      some (XmlElem.mk "window" [] .vNone []) ∧
    (cfgRep.MergeFromXML [XmlElem.mk "window" [] .vNone []]).cfg.posX =
      cfgRep.posX ∧
    (cfgRep.MergeFromXML [XmlElem.mk "window" [] .vNone []]).cfg.state =
      cfgRep.state ∧
    (cfgRep.MergeFromXML
        [XmlElem.mk "window" [] .vNone []]).cfg.showPlugins =
      cfgRep.showPlugins := by
  have h := mergeFromXML_missing_elements_frame cfgRep
    [XmlElem.mk "window" [] .vNone []] (XmlElem.mk "window" [] .vNone []) rfl
  exact ⟨rfl, h.1 rfl, h.2.2.2.2.2.1 rfl, (h.2.2.2.2.2.2.2 rfl).2.2⟩

/-- C4: a configuration whose position fields hold the `-1` sentinel
is never applied as real geometry — `ApplyConfig` skips the move and
the window keeps its position (it is not moved to (-1,-1)). -/
theorem applyConfig_skips_sentinel_position (st : MainWindowState)
    (restoreOk : Bool) (c : WindowConfig) (hx : c.posX = -1)
    (_hy : c.posY = -1) :
    (ApplyConfig st restoreOk c).window.posX = st.posX ∧
    (ApplyConfig st restoreOk c).window.posY = st.posY := by
  have hcond : ¬(c.posX ≥ 0 ∧ c.posY ≥ 0) := by
    rw [hx]
    rintro ⟨h1, -⟩
    norm_num at h1
  unfold ApplyConfig
  constructor <;> simp [hcond]

/-- Witness for C4 with the sentinel config produced by parsing
`<window><width>800</width><height>600</height></window>` into a fresh
record. -/
theorem applyConfig_skips_sentinel_position_witness :
    parsedWH.posX = -1 ∧ parsedWH.posY = -1 ∧
    parsedWH.width = 800 ∧ parsedWH.height = 600 ∧
    (ApplyConfig winRep true parsedWH).window.posX = winRep.posX ∧
    (ApplyConfig winRep true parsedWH).window.posY = winRep.posY := by
  have h := applyConfig_skips_sentinel_position winRep true parsedWH
    (by decide) (by decide)
  exact ⟨by decide, by decide, by decide, by decide, h.1, h.2⟩

/-- The `show` elements that `XMLString` emits parse back to exactly
the original names, provided none of them is empty (an empty name
prints as an empty element and is dropped on re-parse). -/
theorem showNames_of_emitted (l : List String) (h : ∀ s ∈ l, s ≠ "") :
    ((l.map (fun s => XmlElem.mk "show" [] (textValue s) [])).filter
        (fun e => e.name = "show")).filterMap
      (fun e => textOf e.content) = l := by
  induction l with
  | nil => rfl
  | cons s t ih =>
      have hs : s ≠ "" := h s (List.mem_cons_self s t)
      have ht : ∀ x ∈ t, x ≠ "" := fun x hx => h x (List.mem_cons_of_mem s hx)
      show List.filterMap (fun e => textOf e.content)
          (XmlElem.mk "show" [] (textValue s) [] ::
            List.filter (fun e => e.name = "show")
              (List.map (fun s => XmlElem.mk "show" [] (textValue s) []) t))
        = s :: t
      rw [List.filterMap_cons,
        show textValue s = XmlValue.vText s from if_neg hs]
      show s :: List.filterMap (fun e => textOf e.content)
          (List.filter (fun e => e.name = "show")
            (List.map (fun s => XmlElem.mk "show" [] (textValue s) []) t))
        = s :: t
      rw [ih ht]

/-- C1 counterexample: with every field of `cfgRep` set to a
non-default value (and both menu keys explicitly set), serializing
with `XMLString` and merging into a fresh record does NOT reproduce
the record: the `styleSheet` field comes back empty, because
`MergeFromXML` only applies the parsed stylesheet as a side effect
and never assigns the field. -/
theorem roundtrip_styleSheet_counterexample :
    cfgRep.styleSheet = "mystyle" ∧
    (WindowConfig.default.MergeFromXML [cfgRep.XMLString]).cfg.styleSheet
      = "" ∧
    (WindowConfig.default.MergeFromXML [cfgRep.XMLString]).cfg ≠ cfgRep := by
  decide

/-- C1 (amended): serializing a `WindowConfig` whose fields all hold
representative non-default values (both menu keys set, non-empty dock
blob, non-empty stylesheet, no empty plugin names) and merging into a
fresh record restores every field EXCEPT `styleSheet` — which parsing
never assigns; it stays at the fresh record's default and the parsed
stylesheet text is instead applied immediately via
`setStyleFromString` — while menu-visibility keys never explicitly set
would remain unset. -/
theorem xmlString_mergeFromXML_roundtrip (c : WindowConfig) (a b : Bool)
    (hm : c.menuVisibilityMap = [("file", a), ("plugins", b)])
    (hstate : c.state ≠ []) (hss : c.styleSheet ≠ "")
    (hshow : ∀ n ∈ c.showPlugins, n ≠ "") :
    WindowConfig.default.MergeFromXML [c.XMLString] =
      ⟨true, { c with styleSheet := "" }, [c.styleSheet]⟩ := by
  obtain ⟨px, py, w, h, stt, ss, se, mvm, pfp, sp⟩ := c
  simp only at hm hstate hss hshow
  subst hm
  have hw : firstChild
      [WindowConfig.XMLString
        ⟨px, py, w, h, stt, ss, se, [("file", a), ("plugins", b)], pfp, sp⟩]
      "window" =
      some (WindowConfig.XMLString
        ⟨px, py, w, h, stt, ss, se, [("file", a), ("plugins", b)], pfp,
          sp⟩) := rfl
  rw [mergeFromXML_some _ _ _ hw]
  simp only [MergeResult.mk.injEq, WindowConfig.mk.injEq]
  and_intros
  all_goals first
    | trivial
    | rfl
    | (show (match (if stt = [] then XmlValue.vNone
            else XmlValue.vBase64 stt) with
          | XmlValue.vBase64 bs => bs
          | _ => ([] : List Nat)) = stt
       rw [if_neg hstate])
    | (show ([] : List String) ++
          ((sp.map (fun s => XmlElem.mk "show" [] (textValue s) [])).filter
            (fun e => e.name = "show")).filterMap
            (fun e => textOf e.content) = sp
       rw [List.nil_append]
       exact showNames_of_emitted sp hshow)
    | (show (match textOf (textValue ss) with
          | some t => [t]
          | none => [""]) = [ss]
       rw [show textValue ss = XmlValue.vText ss from if_neg hss]
       rfl)

/-- Witness for the amended C1 at `cfgRep`. -/
theorem xmlString_mergeFromXML_roundtrip_witness :
    cfgRep.menuVisibilityMap = [("file", false), ("plugins", true)] ∧
    cfgRep.state ≠ [] ∧ cfgRep.styleSheet ≠ "" ∧
    WindowConfig.default.MergeFromXML [cfgRep.XMLString] =
      ⟨true, { cfgRep with styleSheet := "" }, [cfgRep.styleSheet]⟩ :=
  ⟨by decide, by decide, by decide,
    xmlString_mergeFromXML_roundtrip cfgRep false true (by decide)
      (by decide) (by decide) (by decide)⟩

/-- C9: `MergeFromXML` appends the parsed `show` plugin names to the
end of the existing `showPlugins` sequence instead of replacing it,
so merging the same document twice yields every parsed name twice —
the operation is not idempotent on this field. -/
theorem mergeFromXML_appends_showPlugins (c : WindowConfig)
    (doc : List XmlElem) (win : XmlElem)
    (hwin : firstChild doc "window" = some win) :
    (c.MergeFromXML doc).cfg.showPlugins =
      c.showPlugins ++ parsedShowNames win ∧
    ((c.MergeFromXML doc).cfg.MergeFromXML doc).cfg.showPlugins =
      c.showPlugins ++ parsedShowNames win ++ parsedShowNames win := by
  have h1 := mergeFromXML_some c doc win hwin
  constructor
  · rw [h1]
  · rw [h1, mergeFromXML_some _ doc win hwin]

/-- Witness for C9: merging `cfgRep`'s own serialization into it (a
non-empty prior sequence) keeps the prior entries in front, and a
second merge duplicates the names. -/
theorem mergeFromXML_appends_showPlugins_witness :
    cfgRep.showPlugins = ["Foo", "Bar"] ∧
    (cfgRep.MergeFromXML [cfgRep.XMLString]).cfg.showPlugins =
      cfgRep.showPlugins ++ parsedShowNames cfgRep.XMLString ∧
    ((cfgRep.MergeFromXML
        [cfgRep.XMLString]).cfg.MergeFromXML
        [cfgRep.XMLString]).cfg.showPlugins =
      cfgRep.showPlugins ++ parsedShowNames cfgRep.XMLString ++
        parsedShowNames cfgRep.XMLString ∧
    (cfgRep.MergeFromXML [cfgRep.XMLString]).cfg.showPlugins =
      ["Foo", "Bar", "Foo", "Bar"] :=
  ⟨by decide,
   (mergeFromXML_appends_showPlugins cfgRep [cfgRep.XMLString]
      cfgRep.XMLString rfl).1,
   (mergeFromXML_appends_showPlugins cfgRep [cfgRep.XMLString]
      cfgRep.XMLString rfl).2,
   by decide⟩

/-- C7: when the destination file cannot be opened, `SaveConfig` shows
exactly one blocking dialog whose text names the path and carries the
permissions hint, writes nothing, and returns normally (the function
is total); on success the informational log line naming the saved path
is emitted.  (The source emits that log line unconditionally, so it
also appears on failure — the success-side assertion of the claim
holds.) -/
theorem saveConfig_error_dialog_and_log (st : MainWindowState)
    (path : String) :
    (SaveConfig st path false).dialogs =
      ["Unable to open file: " ++ path ++ ".\nCheck file permissions."] ∧
    (SaveConfig st path false).written = false ∧
    (SaveConfig st path true).dialogs = [] ∧
    (SaveConfig st path true).written = true ∧
    (SaveConfig st path true).logs =
      ["Saved configuration [" ++ path ++ "]"] :=
  ⟨rfl, rfl, rfl, rfl, rfl⟩

/-- C10: `SaveConfig` snapshots the live window into the owned
`WindowConfig` (via `UpdateWindowConfig`) before the file is opened,
so the owned configuration is updated even when the open fails — a
failed save is not atomic with respect to the in-memory state.  The
menus configuration is deliberately not refreshed. -/
theorem saveConfig_updates_config_before_open (st : MainWindowState)
    (path : String) (openOk : Bool) :
    (SaveConfig st path openOk).window = UpdateWindowConfig st ∧
    (SaveConfig st path false).window.windowConfig.posX = st.posX ∧
    (SaveConfig st path false).window.windowConfig.posY = st.posY ∧
    (SaveConfig st path false).window.windowConfig.width = st.winWidth ∧
    (SaveConfig st path false).window.windowConfig.height = st.winHeight ∧
    (SaveConfig st path false).window.windowConfig.state = st.dockState ∧
    (SaveConfig st path false).window.windowConfig.styleSheet =
      st.appStyleSheet ∧
    (SaveConfig st path false).window.windowConfig.menuVisibilityMap =
      st.windowConfig.menuVisibilityMap ∧
    (SaveConfig st path false).written = false := by
  refine ⟨?_, rfl, rfl, rfl, rfl, rfl, rfl, rfl, rfl⟩
  cases openOk <;> rfl

/-- Every key of `mapInsert m k v` is the inserted key or a key of
`m`. -/
theorem mapInsert_keys_mem (m : List (String × Bool)) (k : String)
    (v : Bool) (k1 : String) (h : k1 ∈ mapKeys (mapInsert m k v)) :
    k1 = k ∨ k1 ∈ mapKeys m := by
  induction m with
  | nil =>
      left
      simpa [mapInsert, mapKeys] using h
  | cons kv rest ih =>
      obtain ⟨k2, v2⟩ := kv
      simp only [mapInsert] at h
      by_cases hk : k2 = k
      · rw [if_pos hk] at h
        simp only [mapKeys, List.map_cons, List.mem_cons] at h ⊢
        rcases h with h | h
        · exact Or.inl (hk ▸ h)
        · exact Or.inr (Or.inr h)
      · rw [if_neg hk] at h
        simp only [mapKeys, List.map_cons, List.mem_cons] at h ⊢
        rcases h with h | h
        · exact Or.inr (Or.inl h)
        · rcases ih h with h2 | h2
          · exact Or.inl h2
          · exact Or.inr (Or.inr h2)

/-- Insertion `insertVisibility` can only add the given key. -/
theorem insertVisibility_keys_mem (m : List (String × Bool))
    (k : String) (ob : Option Bool) (k1 : String)
    (h : k1 ∈ mapKeys (insertVisibility m k ob)) :
    k1 = k ∨ k1 ∈ mapKeys m := by
  cases ob with
  | none => exact Or.inr h
  | some v => exact mapInsert_keys_mem m k v k1 h

/-- C8: the `menuVisibility` map only ever holds the known keys
"file" and "plugins": `MergeFromXML` never inserts any other key
(unrecognized menu elements are dropped), and the `menus` element
emitted by `XMLString` has exactly the children `file` and `plugins`
(so no visibility attribute is written for any other key) — an
invariant preserved by every parse and serialize. -/
theorem menuVisibility_known_keys_invariant (c : WindowConfig)
    (hc : ∀ k ∈ mapKeys c.menuVisibilityMap, k = "file" ∨ k = "plugins") :
    (∀ doc k, k ∈ mapKeys (c.MergeFromXML doc).cfg.menuVisibilityMap →
        k = "file" ∨ k = "plugins") ∧
    ∀ c2 : WindowConfig,
      (firstChild (c2.XMLString).children "menus").map
          (fun m => m.children.map XmlElem.name) = some ["file", "plugins"] := by
  refine ⟨?_, fun c2 => rfl⟩
  intro doc k hk
  rcases hdoc : firstChild doc "window" with _ | win
  · have hmerge : c.MergeFromXML doc = ⟨false, c, []⟩ := by
      unfold WindowConfig.MergeFromXML
      rw [hdoc]
    rw [hmerge] at hk
    exact hc k hk
  · rw [mergeFromXML_some c doc win hdoc] at hk
    have hk2 : k ∈ mapKeys (menusMapFrom win c.menuVisibilityMap) := hk
    unfold menusMapFrom at hk2
    rcases hmen : firstChild win.children "menus" with _ | menusElem
    · rw [hmen] at hk2
      exact hc k hk2
    · rw [hmen] at hk2
      rcases insertVisibility_keys_mem _ _ _ _ hk2 with h1 | h1
      · exact Or.inr h1
      · rcases insertVisibility_keys_mem _ _ _ _ h1 with h2 | h2
        · exact Or.inl h2
        · exact hc k h2

/-- Witness for C8 at `cfgRep` and a document carrying an unknown
menu element (which is dropped). -/
theorem menuVisibility_known_keys_invariant_witness :
    (∀ k ∈ mapKeys cfgRep.menuVisibilityMap,
      k = "file" ∨ k = "plugins") ∧
    (∀ k, k ∈ mapKeys (cfgRep.MergeFromXML
        [XmlElem.mk "window" [] .vNone
          [XmlElem.mk "menus" [] .vNone
            [XmlElem.mk "mystery" [("visible", false)] .vNone []]]]).cfg.menuVisibilityMap →
      k = "file" ∨ k = "plugins") ∧
    (firstChild (cfgRep.XMLString).children "menus").map
        (fun m => m.children.map XmlElem.name) = some ["file", "plugins"] := by
  have h := menuVisibility_known_keys_invariant cfgRep (by decide)
  exact ⟨by decide, fun k hk => h.1 _ k hk, h.2 cfgRep⟩

/-- The "Hide menus" loop does not disturb what the plugins-menu pass
reads: the plugins menu is still found, with the same name and
actions. -/
theorem findMenu_hideMenus (mvm : List (String × Bool))
    (ms : List MenuM) (m : MenuM)
    (hm : findMenu ms "pluginsMenu" = some m) :
    ∃ m1, findMenu (hideMenusWith mvm ms) "pluginsMenu" = some m1 ∧
      m1.objectName = m.objectName ∧ m1.actions = m.actions := by
  have hcong := findMenu_menuKey_congr (hideMenusWith mvm ms) ms
    "pluginsMenu" (hideMenusWith_menuKey mvm ms)
  rw [hm] at hcong
  rcases hfind : findMenu (hideMenusWith mvm ms) "pluginsMenu" with _ | m1
  · rw [hfind] at hcong
    simp at hcong
  · rw [hfind] at hcong
    have hkey : menuKey m1 = menuKey m := by
      simpa using hcong
    exact ⟨m1, rfl, congrArg Prod.fst hkey, congrArg Prod.snd hkey⟩

/-- C5: `ApplyConfig` recomputes each Plugins-menu entry's visibility
so that an entry is visible iff `pluginsFromPaths` is true or its
label appears in `showPlugins`. -/
theorem applyConfig_plugins_menu_visibility (st : MainWindowState)
    (restoreOk : Bool) (c : WindowConfig) (m : MenuM)
    (hm : findMenu st.menus "pluginsMenu" = some m) :
    ∃ m2, findMenu (ApplyConfig st restoreOk c).window.menus
        "pluginsMenu" = some m2 ∧
      m2.actions = m.actions.map (fun (a : String × Bool) =>
        (a.1, c.pluginsFromPaths || c.showPlugins.contains a.1)) := by
  obtain ⟨m1, h1, hname, hacts⟩ :=
    findMenu_hideMenus c.menuVisibilityMap st.menus m hm
  have hfst := applyPluginActions_fst c
    (hideMenusWith c.menuVisibilityMap st.menus) m1 h1
  have hupd := findMenu_updateMenu
    (hideMenusWith c.menuVisibilityMap st.menus) "pluginsMenu"
    (fun mm =>
      { mm with actions := mm.actions.map (fun (a : String × Bool) =>
          (a.1, c.pluginsFromPaths || c.showPlugins.contains a.1)) })
    (fun mm => rfl)
  rw [h1] at hupd
  refine ⟨{ m1 with actions := m1.actions.map (fun (a : String × Bool) =>
      (a.1, c.pluginsFromPaths || c.showPlugins.contains a.1)) }, ?_, ?_⟩
  · show findMenu (applyPluginActions c
        (hideMenusWith c.menuVisibilityMap st.menus)).1 "pluginsMenu" = _
    rw [hfst]
    exact hupd
  · show m1.actions.map _ = m.actions.map _
    rw [hacts]

/-- Witness for C5: with `pluginsFromPaths := false` and
`showPlugins := ["Foo"]`, the "Foo" entry becomes visible and "Baz"
hidden; with `pluginsFromPaths := true` both become visible. -/
theorem applyConfig_plugins_menu_visibility_witness :
    findMenu winRep.menus "pluginsMenu" =
      some ⟨"pluginsMenu", true, [("Foo", false), ("Baz", true)]⟩ ∧
    ([("Foo", false), ("Baz", true)].map (fun (a : String × Bool) =>
        (a.1, cfgFoo.pluginsFromPaths || cfgFoo.showPlugins.contains a.1)) =
      [("Foo", true), ("Baz", false)]) ∧
    (∃ m2, findMenu (ApplyConfig winRep true cfgFoo).window.menus
        "pluginsMenu" = some m2 ∧
      m2.actions = [("Foo", false), ("Baz", true)].map
        (fun (a : String × Bool) =>
          (a.1, cfgFoo.pluginsFromPaths || cfgFoo.showPlugins.contains a.1))) ∧
    ([("Foo", false), ("Baz", true)].map (fun (a : String × Bool) =>
        (a.1, cfgTrue.pluginsFromPaths || cfgTrue.showPlugins.contains a.1)) =
      [("Foo", true), ("Baz", true)]) ∧
    (∃ m2, findMenu (ApplyConfig winRep true cfgTrue).window.menus
        "pluginsMenu" = some m2 ∧
      m2.actions = [("Foo", false), ("Baz", true)].map
        (fun (a : String × Bool) =>
          (a.1, cfgTrue.pluginsFromPaths || cfgTrue.showPlugins.contains a.1))) :=
  ⟨rfl, by decide,
   applyConfig_plugins_menu_visibility winRep true cfgFoo
     ⟨"pluginsMenu", true, [("Foo", false), ("Baz", true)]⟩ rfl,
   by decide,
   applyConfig_plugins_menu_visibility winRep true cfgTrue
     ⟨"pluginsMenu", true, [("Foo", false), ("Baz", true)]⟩ rfl⟩

/-- C6: `ApplyConfig` returns true for every input configuration, and
a requested plugin name matching no Plugins-menu entry only produces
the missing-plugin warning — the operation still reports success. -/
theorem applyConfig_returns_true_and_warns (st : MainWindowState)
    (restoreOk : Bool) (c : WindowConfig) :
    (ApplyConfig st restoreOk c).returned = true ∧
    ∀ p m, p ∈ c.showPlugins →
      findMenu st.menus "pluginsMenu" = some m →
      (∀ a ∈ m.actions, a.1 ≠ p) →
      missingPluginWarning p ∈ (ApplyConfig st restoreOk c).warnings := by
  refine ⟨rfl, ?_⟩
  intro p m hp hm hnone
  obtain ⟨m1, h1, hname, hacts⟩ :=
    findMenu_hideMenus c.menuVisibilityMap st.menus m hm
  have hsnd := applyPluginActions_snd c
    (hideMenusWith c.menuVisibilityMap st.menus) m1 h1
  show missingPluginWarning p ∈
    (if c.state ≠ [] ∧ ¬ restoreOk then ["Failed to restore state"]
     else []) ++
      (applyPluginActions c (hideMenusWith c.menuVisibilityMap st.menus)).2
  apply List.mem_append_right
  rw [hsnd]
  have hpred : (!(m1.actions.any (fun a => a.1 == p))) = true := by
    rw [hacts]
    have hfalse : m.actions.any (fun a => a.1 == p) = false := by
      rw [List.any_eq_false]
      intro a ha
      simpa using hnone a ha
    rw [hfalse]
    rfl
  exact List.mem_map_of_mem missingPluginWarning
    (List.mem_filter.mpr ⟨hp, hpred⟩)

/-- Witness for C6: `cfgRep` asks for "Bar", which has no entry in
`winRep`'s plugins menu; the warning is emitted and the call still
returns true. -/
theorem applyConfig_returns_true_and_warns_witness :
    (ApplyConfig winRep true cfgRep).returned = true ∧
    "Bar" ∈ cfgRep.showPlugins ∧
    missingPluginWarning "Bar" ∈ (ApplyConfig winRep true cfgRep).warnings ∧
    missingPluginWarning "Bar" =
      "Requested to show plugin [Bar] but it doesn't exist." := by
  have h := applyConfig_returns_true_and_warns winRep true cfgRep
  exact ⟨h.1, by decide,
    h.2 "Bar" ⟨"pluginsMenu", true, [("Foo", false), ("Baz", true)]⟩
      (by decide) rfl (by decide),
    rfl⟩

end IgnGui
